import Mathlib

/-!
Shallow embedding of the task-manager core of `src/tasks/task_manager.hh`
(ScyllaDB's sharded task-management subsystem) and proofs about it.

Modelling conventions:
* `task_id` (a 128-bit UUID in the source) is modelled as `Nat`; `0` plays the
  role of the null (nil-UUID) identifier, which is what `task_id`'s boolean
  conversion tests.
* C++ `double` (the two components of `task::progress`) is modelled as `Rat`;
  the properties at issue only involve componentwise addition and the zero
  initialisers, on which the model is exact.
* `db_clock::time_point` is modelled as `Nat` (epoch = `0`, the value a
  default-constructed time point holds).
* Per-shard maps (`unordered_map`) are modelled as association lists with
  lookup by key; a sharded service is the list of its per-shard states,
  indexed by shard number.
* Seastar futures are elided: a coroutine that only hops shards and computes
  is modelled as the total function it computes, with `parallel_for_each`
  over shards serialised in shard order (the properties proved below inspect
  all shards, so the order is immaterial).
* Fatal `on_internal_error` and thrown exceptions are modelled as explicit
  result constructors (`invoke_result`) or as `Option`/rejection.
-/

namespace Tasks

/-- Task identifier (`tasks::task_id`). `0` is the null id. -/
abbrev task_id := Nat

/-- `task_manager::task_state` (task_manager.hh:71-76). -/
inductive task_state where
  | created
  | running
  | done
  | failed
deriving DecidableEq

/-- Terminal states are Done and Failed. -/
def task_state.is_terminal : task_state → Bool
  | .done => true
  | .failed => true
  | _ => false

/-- `task_manager::task::progress` (task_manager.hh:80-94): two `double`
components with in-class initialisers `0.0`, modelled as rationals. -/
structure progress where
  completed : Rat := 0
  total : Rat := 0
deriving DecidableEq

/-- `progress::operator+=` (task_manager.hh:84-88): adds `rhs` into the left
operand componentwise and yields the updated left operand. -/
def progress.addAssign (lhs rhs : progress) : progress :=
  { completed := lhs.completed + rhs.completed, total := lhs.total + rhs.total }

/-- `operator+(progress lhs, const progress& rhs)` (task_manager.hh:90-93):
copies `lhs`, applies `+=` with `rhs`, and returns the copy. -/
def progress.add (lhs rhs : progress) : progress :=
  progress.addAssign lhs rhs

/-- `task_manager::task::status` (task_manager.hh:96-109) with the source's
in-class initialisers as Lean default field values (`task_id id` and the two
time points default-construct to null/epoch; the `std::string` fields
default-construct to empty). -/
structure status where
  id : task_id := 0
  state : task_state := .created
  start_time : Nat := 0
  end_time : Nat := 0
  error : String := ""
  sequence_number : Nat := 0
  shard : Nat := 0
  scope : String := ""
  keyspace : String := ""
  table : String := ""
  entity : String := ""
  progress_units : String := ""
deriving DecidableEq

/-- The live task object: its `impl`'s `_status` and `_parent_id`
(task_manager.hh:150-158), plus the abortable capability the implementation
declares (`is_abortable`, task_manager.hh:168) and the abort-source flag
(`_as`, queried by `abort_requested`). -/
structure task where
  task_status : status
  parent_id : task_id := 0
  abortable : Bool := false
  abort_requested : Bool := false
deriving DecidableEq

/-- `task_manager::task::task_essentials` (task_manager.hh:111-118); the
`failed_children` component makes it recursive. -/
inductive task_essentials where
  | mk (task_status : status) (task_progress : progress) (parent_id : task_id)
      (type : String) (abortable : Bool) (failed_children : List task_essentials)

/-- `task::children` (task_manager.hh:120-148): the live children
(`_children`, an unordered map whose values are foreign task handles —
modelled by the list of its values) and the retired children
(`_finished_children`). The rwlock is immaterial in this sequential model. -/
structure children where
  children_values : List task := []
  finished_children : List task_essentials := []

/-- `children::map_each_task` (task_manager.hh:133-147): joins the live
children mapped through `map_children` with the finished children mapped
through `map_finished_children`, keeps the engaged optionals
(`filter bool(task)`) and extracts their values (`transformed res.value()`). -/
def children.map_each_task {Res : Type} (c : children)
    (map_children : task → Option Res)
    (map_finished_children : task_essentials → Option Res) : List Res :=
  (((c.children_values.map map_children) ++
      (c.finished_children.map map_finished_children)).filter
    (fun t => t.isSome)).filterMap id

/-- A shard's flat all-tasks index (`task_manager::task_map`,
task_manager.hh:46, the `_all_tasks` member returned by `get_all_tasks`),
modelled as an association list; `unordered_map::find` is `List.lookup`. -/
abbrev task_map := List (task_id × task)

/-- Outcome of the cross-shard dispatch: the function's result, the fatal
`on_internal_error` of task_manager.hh:308, or the thrown
`task_manager::task_not_found` of task_manager.hh:61-69/312. -/
inductive invoke_result (T : Type) where
  | ok : T → invoke_result T
  | internal_error : invoke_result T
  | task_not_found : invoke_result T
deriving DecidableEq

/-- The `parallel_for_each` body of `invoke_on_task` (task_manager.hh:297-310)
serialised in shard order, fused with the post-loop steps of lines 311-314.
`res` is the accumulator `std::optional<T> res`; each shard computes
`local_res` by probing its all-tasks index and applying `func` where found;
a second engaged result triggers `on_internal_error`; an empty final `res`
throws `task_not_found`; otherwise `res.value()` is returned. -/
def invoke_go {T : Type} (id : task_id) (func : task → T) :
    List task_map → Option T → invoke_result T
  | [], none => .task_not_found
  | [], some r => .ok r
  | shard_tasks :: rest, res =>
    let local_res : Option T := (shard_tasks.lookup id).map func
    match res with
    | none => invoke_go id func rest local_res
    | some r =>
      if local_res.isSome then .internal_error else invoke_go id func rest (some r)

/-- `task_manager::invoke_on_task` (task_manager.hh:294-315). `tm` is the
sharded service: the list of the per-shard all-tasks indexes. -/
def invoke_on_task {T : Type} (tm : List task_map) (id : task_id)
    (func : task → T) : invoke_result T :=
  invoke_go id func tm none

/-- Modelled from the spec: `lookup_task_on_all_shards`
(declared task_manager.hh:292, body outside src/). Per the spec it probes the
all-tasks index on each shard and returns a handle to the task found, with the
same fan-out and the same duplicate / absence checks as `invoke_on_task`;
i.e. it is `invoke_on_task` with the function returning the found task. -/
def lookup_task_on_all_shards (tm : List task_map) (id : task_id) :
    invoke_result task :=
  invoke_on_task tm id (fun t => t)

/-- Number of shards whose all-tasks index holds `id`. -/
def shards_holding (tm : List task_map) (id : task_id) : Nat :=
  tm.countP (fun shard_tasks => (shard_tasks.lookup id).isSome)

theorem invoke_go_some {T : Type} (id : task_id) (func : task → T) (r : T) :
    ∀ tm : List task_map, invoke_go id func tm (some r) =
      if tm.any (fun s => (s.lookup id).isSome) then
        invoke_result.internal_error
      else
        invoke_result.ok r := by
  intro tm
  induction tm with
  | nil => rfl
  | cons s rest ih =>
    rcases hh : s.lookup id with _ | t
    · have hstep : invoke_go id func (s :: rest) (some r) =
          invoke_go id func rest (some r) := by
        simp [invoke_go, hh]
      rw [hstep, ih]
      simp only [hh, Option.isSome_none, Bool.false_or, List.any_cons]
    · have hstep : invoke_go id func (s :: rest) (some r) =
          invoke_result.internal_error := by
        simp [invoke_go, hh]
      rw [hstep]
      have hany : (s :: rest).any (fun s => (s.lookup id).isSome) = true := by
        simp [hh]
      rw [if_pos hany]

theorem shards_holding_cons_none (rest : List task_map) (s : task_map)
    (id : task_id) (hh : s.lookup id = none) :
    shards_holding (s :: rest) id = shards_holding rest id := by
  simp [shards_holding, List.countP_cons, hh]

theorem shards_holding_cons_some (rest : List task_map) (s : task_map)
    (id : task_id) (t : task) (hh : s.lookup id = some t) :
    shards_holding (s :: rest) id = shards_holding rest id + 1 := by
  simp [shards_holding, List.countP_cons, hh]

theorem shards_holding_any (rest : List task_map) (id : task_id) :
    rest.any (fun s => (s.lookup id).isSome) = true ↔
      0 < shards_holding rest id := by
  rw [shards_holding, List.countP_pos_iff, List.any_eq_true]

theorem invoke_internal_error_iff {T : Type} (id : task_id) (func : task → T) :
    ∀ tm : List task_map,
      invoke_on_task tm id func = invoke_result.internal_error ↔
        2 ≤ shards_holding tm id := by
  intro tm
  induction tm with
  | nil => simp [invoke_on_task, invoke_go, shards_holding]
  | cons s rest ih =>
    rcases hh : s.lookup id with _ | t
    · have hstep : invoke_on_task (s :: rest) id func =
          invoke_on_task rest id func := by
        simp [invoke_on_task, invoke_go, hh]
      rw [hstep, shards_holding_cons_none rest s id hh]
      exact ih
    · have hstep : invoke_on_task (s :: rest) id func =
          invoke_go id func rest (some (func t)) := by
        simp [invoke_on_task, invoke_go, hh]
      rw [hstep, shards_holding_cons_some rest s id t hh, invoke_go_some]
      by_cases hany : rest.any (fun s => (s.lookup id).isSome) = true
      · have hpos := (shards_holding_any rest id).mp hany
        rw [if_pos hany]
        exact ⟨fun _ => by omega, fun _ => rfl⟩
      · have hzero : shards_holding rest id = 0 := by
          rcases Nat.eq_zero_or_pos (shards_holding rest id) with h0 | hp
          · exact h0
          · exact absurd ((shards_holding_any rest id).mpr hp) hany
        rw [if_neg hany, hzero]
        simp

theorem invoke_not_found_iff {T : Type} (id : task_id) (func : task → T) :
    ∀ tm : List task_map,
      invoke_on_task tm id func = invoke_result.task_not_found ↔
        shards_holding tm id = 0 := by
  intro tm
  induction tm with
  | nil => simp [invoke_on_task, invoke_go, shards_holding]
  | cons s rest ih =>
    rcases hh : s.lookup id with _ | t
    · have hstep : invoke_on_task (s :: rest) id func =
          invoke_on_task rest id func := by
        simp [invoke_on_task, invoke_go, hh]
      rw [hstep, shards_holding_cons_none rest s id hh]
      exact ih
    · have hstep : invoke_on_task (s :: rest) id func =
          invoke_go id func rest (some (func t)) := by
        simp [invoke_on_task, invoke_go, hh]
      rw [hstep, shards_holding_cons_some rest s id t hh, invoke_go_some]
      by_cases hany : rest.any (fun s => (s.lookup id).isSome) = true
      · rw [if_pos hany]
        simp
      · rw [if_neg hany]
        simp

/-- C1: `invoke_on_task` (and `lookup_task_on_all_shards`) ends in the fatal
`on_internal_error` of task_manager.hh:308 exactly when the task id is present
in the all-tasks index of more than one shard; in particular, under the
uniqueness precondition (at most one shard holds the id) that error branch is
never taken. -/
theorem invoke_on_task_internal_error_iff_duplicate {T : Type}
    (tm : List task_map) (id : task_id) (func : task → T) :
    (invoke_on_task tm id func = invoke_result.internal_error ↔
      2 ≤ shards_holding tm id) ∧
    (lookup_task_on_all_shards tm id = invoke_result.internal_error ↔
      2 ≤ shards_holding tm id) :=
  ⟨invoke_internal_error_iff id func tm,
    invoke_internal_error_iff id (fun t => t) tm⟩

/-- C2: `invoke_on_task` (and `lookup_task_on_all_shards`) fails with
`task_not_found` exactly when the task id is absent from the all-tasks index
of every shard. -/
theorem invoke_on_task_not_found_iff_absent {T : Type}
    (tm : List task_map) (id : task_id) (func : task → T) :
    (invoke_on_task tm id func = invoke_result.task_not_found ↔
      shards_holding tm id = 0) ∧
    (lookup_task_on_all_shards tm id = invoke_result.task_not_found ↔
      shards_holding tm id = 0) :=
  ⟨invoke_not_found_iff id func tm,
    invoke_not_found_iff id (fun t => t) tm⟩

/-- C3: when the task id is held by exactly one shard and that shard's
all-tasks index maps it to `t`, `invoke_on_task` runs `func` on that task and
returns exactly `func t`. -/
theorem invoke_on_task_unique_shard_result {T : Type} (tm : List task_map)
    (id : task_id) (func : task → T) (s : task_map) (t : task)
    (hmem : s ∈ tm) (hlook : s.lookup id = some t)
    (hcount : shards_holding tm id = 1) :
    invoke_on_task tm id func = invoke_result.ok (func t) := by
  induction tm generalizing s t with
  | nil => exact absurd hmem (List.not_mem_nil s)
  | cons s0 rest ih =>
    rcases hh : s0.lookup id with _ | t0
    · have hstep : invoke_on_task (s0 :: rest) id func =
          invoke_on_task rest id func := by
        simp [invoke_on_task, invoke_go, hh]
      have hcnt := shards_holding_cons_none rest s0 id hh
      have hmem2 : s ∈ rest := by
        rcases List.mem_cons.mp hmem with h1 | h1
        · subst h1
          rw [hh] at hlook
          cases hlook
        · exact h1
      rw [hstep]
      exact ih s t hmem2 hlook (by rw [← hcnt]; exact hcount)
    · have hstep : invoke_on_task (s0 :: rest) id func =
          invoke_go id func rest (some (func t0)) := by
        simp [invoke_on_task, invoke_go, hh]
      have hcnt := shards_holding_cons_some rest s0 id t0 hh
      have hzero : shards_holding rest id = 0 := by omega
      have hnotany : ¬ rest.any (fun s => (s.lookup id).isSome) = true := by
        intro hany
        have := (shards_holding_any rest id).mp hany
        omega
      rw [hstep, invoke_go_some, if_neg hnotany]
      have hs : s = s0 := by
        rcases List.mem_cons.mp hmem with h1 | h1
        · exact h1
        · exfalso
          have hpos : 0 < shards_holding rest id :=
            (shards_holding_any rest id).mp
              (List.any_eq_true.mpr ⟨s, h1, by rw [hlook]; rfl⟩)
          omega
      subst hs
      rw [hh] at hlook
      injection hlook with he
      subst he
      rfl

/-- Witness for C3: a single shard whose index maps id 1 to a task; invoking
a function reading the task's id returns that id. -/
theorem invoke_on_task_unique_shard_result_witness :
    invoke_on_task [[(1, { task_status := { id := 1 } })]] 1
      (fun t => t.task_status.id) = invoke_result.ok 1 :=
  invoke_on_task_unique_shard_result [[(1, { task_status := { id := 1 } })]] 1
    (fun t => t.task_status.id) [(1, { task_status := { id := 1 } })]
    { task_status := { id := 1 } } (by simp) (by rfl) (by rfl)

theorem filter_isSome_filterMap_id_map_some {Res : Type} :
    ∀ l : List (Option Res),
      (((l.filter (fun t => t.isSome)).filterMap id).map some) =
        l.filter (fun t => t.isSome) := by
  intro l
  induction l with
  | nil => rfl
  | cons o rest ih =>
    rcases o with _ | x
    · simpa using ih
    · simpa using ih

theorem filter_isSome_filterMap_id {Res : Type} :
    ∀ l : List (Option Res),
      ((l.filter (fun t => t.isSome)).filterMap id) = l.filterMap id := by
  intro l
  induction l with
  | nil => rfl
  | cons o rest ih =>
    rcases o with _ | x
    · simpa using ih
    · simpa using ih

/-- C7: `map_each_task` returns exactly the engaged (non-empty) optional
outputs of `map_children` on each live child and of `map_finished_children`
on each retired child, with the empty optionals dropped: mapping `some` over
the result reproduces precisely the engaged entries of the joined mapped
range, and the result is the engaged live outputs followed by the engaged
retired outputs. -/
theorem map_each_task_engaged_outputs {Res : Type} (c : children)
    (map_children : task → Option Res)
    (map_finished_children : task_essentials → Option Res) :
    ((c.map_each_task map_children map_finished_children).map some =
      ((c.children_values.map map_children) ++
        (c.finished_children.map map_finished_children)).filter
          (fun t => t.isSome)) ∧
    (c.map_each_task map_children map_finished_children =
      (c.children_values.map map_children).filterMap id ++
        (c.finished_children.map map_finished_children).filterMap id) := by
  constructor
  · exact filter_isSome_filterMap_id_map_some _
  · unfold children.map_each_task
    rw [filter_isSome_filterMap_id, List.filterMap_append]

/-- C8: progress addition (`operator+`) is elementwise on `completed` and
`total`, and `operator+=` agrees with `operator+` on its left operand. -/
theorem progress_add_elementwise (p q : progress) :
    ((progress.add p q).completed = p.completed + q.completed) ∧
    ((progress.add p q).total = p.total + q.total) ∧
    (progress.add p q = progress.addAssign p q) :=
  ⟨rfl, rfl, rfl⟩

/-- C10: a default-constructed `status` has state Created, sequence number 0,
shard 0 and empty error, scope, keyspace, table, entity and progress_units
strings; a default-constructed `progress` is (0, 0). -/
theorem default_status_and_progress :
    (({} : status).state = task_state.created) ∧
    (({} : status).sequence_number = 0) ∧
    (({} : status).shard = 0) ∧
    (({} : status).error = "") ∧
    (({} : status).scope = "") ∧
    (({} : status).keyspace = "") ∧
    (({} : status).table = "") ∧
    (({} : status).entity = "") ∧
    (({} : status).progress_units = "") ∧
    (({} : progress).completed = 0) ∧
    (({} : progress).total = 0) :=
  ⟨rfl, rfl, rfl, rfl, rfl, rfl, rfl, rfl, rfl, rfl, rfl⟩

/-- The `module` state relevant to task creation: the `_sequence_number`
counter (task_manager.hh:228) and the module's task map `_tasks`
(task_manager.hh:226). -/
structure module_state where
  sequence_number : Nat := 0
  tasks : task_map := []
deriving DecidableEq

/-- Modelled from the spec: `module::new_sequence_number` (declared
task_manager.hh:236, body outside src/) draws the next value of the module's
monotonically increasing per-module per-shard counter. -/
def module_state.new_sequence_number (m : module_state) : Nat × module_state :=
  (m.sequence_number + 1, { m with sequence_number := m.sequence_number + 1 })

/-- Modelled from the spec: `tasks::task_info` (tasks/types.hh, outside src/),
the parent descriptor handed to `make_task`: the parent task's id and shard.
The boolean conversion `parent_d ?` tests a non-null parent id; the empty
`task_info` carries the null id. -/
structure task_info where
  id : task_id := 0
  shard : Nat := 0
deriving DecidableEq

/-- Modelled from the spec: the `task::impl` constructor (declared
task_manager.hh:160, body outside src/) initialises `_status` from its
arguments — the task starts in state Created on the current shard — and
records the parent id. `shard` stands for `this_shard_id()`. -/
def impl_ctor (id : task_id) (sequence_number : Nat)
    (scope keyspace table entity : String) (parent_id : task_id)
    (shard : Nat) : task :=
  { task_status :=
      { id := id, state := .created, sequence_number := sequence_number,
        scope := scope, keyspace := keyspace, table := table,
        entity := entity, shard := shard },
    parent_id := parent_id }

/-- Modelled from the spec: the non-template `module::make_task`
(task_manager.hh:260-263, body outside src/). Per its source comment and spec
§4.4, run on the target shard: when `parent_d` is non-empty the new task's
sequence number is inherited from the parent — read on the parent's shard and
passed here as `parent_seq` — and set (the spec's parent-children linking
happens on the parent's shard and is not part of the module state modelled
here); the task is then registered in the local maps and returned, not
started. -/
def make_task_local (task_impl : task) (parent_d : task_info)
    (parent_seq : Nat) (m : module_state) : task × module_state :=
  let t := if parent_d.id ≠ 0 then
      { task_impl with task_status :=
          { task_impl.task_status with sequence_number := parent_seq } }
    else task_impl
  (t, { m with tasks := (t.task_status.id, t) :: m.tasks })

/-- The `module::make_task` template (task_manager.hh:248-258), run on the
target shard `shard`: constructs the task implementation with the caller's id
or, when the caller's id is null, a freshly generated random id
(`id ? id : task_id::create_random_id()`, with `fresh_id` standing for the
random draw), and with sequence number `parent_d ? 0 :
module_ptr->new_sequence_number()`; hands it to the non-template `make_task`
and resolves to `task->id()`, the id of the task made — returned here
together with that task and the updated module state. -/
def make_task_cross (m : module_state) (fresh_id : task_id) (shard : Nat)
    (id : task_id) (keyspace table entity : String) (parent_d : task_info)
    (parent_seq : Nat) : task_id × task × module_state :=
  let actual_id := if id ≠ 0 then id else fresh_id
  let drawn := if parent_d.id ≠ 0 then (0, m) else m.new_sequence_number
  let made := make_task_local
    (impl_ctor actual_id drawn.1 "" keyspace table entity parent_d.id shard)
    parent_d parent_seq drawn.2
  (made.1.task_status.id, made.1, made.2)

/-- C4 (amended): the sequence number is assigned when the task is made,
at construction: a root task (empty `parent_info`) draws the fresh next value
of the owning module's monotonic counter (which advances exactly then), and a
child task (non-empty `parent_info`) carries its parent's sequence number;
the task is still in state Created at that point. -/
theorem make_task_sequence_number_policy (m : module_state)
    (fresh_id : task_id) (shard : Nat) (id : task_id)
    (keyspace table entity : String) (parent_d : task_info)
    (parent_seq : Nat) :
    ((make_task_cross m fresh_id shard id keyspace table entity parent_d
        parent_seq).2.1.task_status.sequence_number =
      if parent_d.id = 0 then m.sequence_number + 1 else parent_seq) ∧
    ((make_task_cross m fresh_id shard id keyspace table entity parent_d
        parent_seq).2.2.sequence_number =
      if parent_d.id = 0 then m.sequence_number + 1 else m.sequence_number) ∧
    ((make_task_cross m fresh_id shard id keyspace table entity parent_d
        parent_seq).2.1.task_status.state = task_state.created) := by
  by_cases h : parent_d.id = 0 <;>
    simp [make_task_cross, make_task_local, impl_ctor,
      module_state.new_sequence_number, h]

/-- C4 counterexample: the assignment does not happen at Running entry. For
the concrete root creation below, the task returned by `make_task` has not
entered Running — its state is still Created — yet its sequence number
already holds its assigned value 1, no longer the default 0. -/
theorem make_task_sequence_number_assigned_before_running :
    ((make_task_cross {} 7 0 5 "" "" "" {} 0).2.1.task_status.state =
      task_state.created) ∧
    ((make_task_cross {} 7 0 5 "" "" "" {} 0).2.1.task_status.sequence_number
      = 1) ∧
    ¬ ((make_task_cross {} 7 0 5 "" "" "" {} 0).2.1.task_status.sequence_number
      = 0) := by
  refine ⟨rfl, rfl, ?_⟩
  decide

/-- C9: in the cross-shard `make_task` template, a null caller-supplied id
makes the task implementation with the freshly generated random id and a
non-null caller id makes it with exactly that id; the resolved value is the
id of the task actually constructed. -/
theorem make_task_cross_resolved_id (m : module_state) (fresh_id : task_id)
    (shard : Nat) (id : task_id) (keyspace table entity : String)
    (parent_d : task_info) (parent_seq : Nat) :
    ((make_task_cross m fresh_id shard id keyspace table entity parent_d
        parent_seq).1 =
      (make_task_cross m fresh_id shard id keyspace table entity parent_d
        parent_seq).2.1.task_status.id) ∧
    ((make_task_cross m fresh_id shard id keyspace table entity parent_d
        parent_seq).2.1.task_status.id =
      if id = 0 then fresh_id else id) := by
  by_cases h : id = 0 <;> by_cases hp : parent_d.id = 0 <;>
    simp [make_task_cross, make_task_local, impl_ctor,
      module_state.new_sequence_number, h, hp]

/-- Modelled from the spec: the allowed state transitions (§3, TaskState):
Created→Running via `start`, Running→Done on clean finish, Running→Failed on
exception or abort; Done and Failed are terminal. -/
def allowed_transition : task_state → task_state → Bool
  | .created, .running => true
  | .running, .done => true
  | .running, .failed => true
  | _, _ => false

/-- Modelled from the spec: `task::change_state` (declared
task_manager.hh:201, body outside src/) moves the task to the given state;
per the spec, transitions are monotonic along Created→Running→{Done, Failed}
and a terminal state never changes, so a request for any other transition is
an invariant violation, modelled as rejection (`none`). -/
def change_state (s : task_state) (t : task) : Option task :=
  if allowed_transition t.task_status.state s then
    some { t with task_status := { t.task_status with state := s } }
  else none

/-- Modelled from the spec: `task::start` (declared task_manager.hh:203, body
outside src/): precondition state == Created (a second `start` is a fatal
internal error, modelled as rejection); transitions to Running and assigns
`start_time` (`now` stands for the clock reading). -/
def task.start (now : Nat) (t : task) : Option task :=
  if t.task_status.state = .created then
    change_state .running
      { t with task_status := { t.task_status with start_time := now } }
  else none

/-- Modelled from the spec: `impl::finish` (declared task_manager.hh:179,
body outside src/): when `run()` returns cleanly, the Running task becomes
Done and `end_time` is set. -/
def task.finish (now : Nat) (t : task) : Option task :=
  if t.task_status.state = .running then
    change_state .done
      { t with task_status := { t.task_status with end_time := now } }
  else none

/-- Modelled from the spec: `impl::finish_failed` (task_manager.hh:180-181,
body outside src/): when `run()` throws (or the abort is observed), the
Running task becomes Failed, the error message is recorded and `end_time` is
set. -/
def task.finish_failed (now : Nat) (err : String) (t : task) : Option task :=
  if t.task_status.state = .running then
    change_state .failed
      { t with task_status :=
          { t.task_status with end_time := now, error := err } }
  else none

/-- Modelled from the spec: `task::abort` (declared task_manager.hh:209, body
outside src/): if the task is abortable, triggers its abort source — the
state itself changes only later, when the cooperative `run()` observes the
signal and finishes failed; otherwise the call fails with NotAbortable,
modelled as rejection. -/
def task.abort (t : task) : Option task :=
  if t.abortable then some { t with abort_requested := true } else none

/-- The claim's operations on a single task. -/
inductive task_op where
  | start_op (now : Nat)
  | change_state_op (s : task_state)
  | finish_op (now : Nat)
  | finish_failed_op (now : Nat) (err : String)
  | abort_op
deriving DecidableEq

/-- Apply one operation; `none` (the rejected, invariant-violation or
NotAbortable outcome) leaves the task unchanged. -/
def apply_op : task_op → task → Option task
  | .start_op now, t => task.start now t
  | .change_state_op s, t => change_state s t
  | .finish_op now, t => task.finish now t
  | .finish_failed_op now err, t => task.finish_failed now err t
  | .abort_op, t => task.abort t

/-- One step of a task under an operation: the new task on success, the
unchanged task on rejection. -/
def step_op (op : task_op) (t : task) : task :=
  match apply_op op t with
  | some t2 => t2
  | none => t

/-- Run a sequence of operations on a task. -/
def run_ops : task → List task_op → task
  | t, [] => t
  | t, op :: ops => run_ops (step_op op t) ops

theorem change_state_allowed (s : task_state) (t t2 : task)
    (h : change_state s t = some t2) :
    allowed_transition t.task_status.state t2.task_status.state = true := by
  unfold change_state at h
  split at h
  · injection h with h2
    subst h2
    assumption
  · cases h

theorem step_op_terminal (op : task_op) (t : task)
    (ht : t.task_status.state.is_terminal = true) :
    (step_op op t).task_status.state = t.task_status.state := by
  have hd : t.task_status.state = task_state.done ∨
      t.task_status.state = task_state.failed := by
    rcases hq : t.task_status.state with _ | _ | _ | _ <;>
      rw [hq] at ht <;>
      simp [task_state.is_terminal] at ht <;> simp
  cases op with
  | start_op now =>
    rcases hd with hq | hq <;> simp [step_op, apply_op, task.start, hq]
  | change_state_op s =>
    rcases hd with hq | hq <;> cases s <;>
      simp [step_op, apply_op, change_state, allowed_transition, hq]
  | finish_op now =>
    rcases hd with hq | hq <;> simp [step_op, apply_op, task.finish, hq]
  | finish_failed_op now err =>
    rcases hd with hq | hq <;>
      simp [step_op, apply_op, task.finish_failed, hq]
  | abort_op =>
    by_cases hb : t.abortable = true <;>
      simp [step_op, apply_op, task.abort, hb]

theorem run_ops_terminal : ∀ (ops : List task_op) (t : task),
    t.task_status.state.is_terminal = true →
    (run_ops t ops).task_status.state = t.task_status.state := by
  intro ops
  induction ops with
  | nil => intro t _; rfl
  | cons op rest ih =>
    intro t ht
    have h1 := step_op_terminal op t ht
    have h2 : (step_op op t).task_status.state.is_terminal = true := by
      rw [h1]
      exact ht
    calc (run_ops t (op :: rest)).task_status.state
        = (run_ops (step_op op t) rest).task_status.state := rfl
      _ = (step_op op t).task_status.state := ih (step_op op t) h2
      _ = t.task_status.state := h1

/-- C5: every successful operation (start, change_state, finish,
finish_failed, abort) either leaves the task's state unchanged or takes one
allowed forward step — Created→Running, Running→Done or Running→Failed, so
the states a task passes through form a prefix of Created, Running, then
exactly one of Done or Failed, never skipping forwards or moving backwards —
and no sequence of operations moves a task out of a terminal state. -/
theorem task_state_monotonic :
    (∀ (op : task_op) (t t2 : task), apply_op op t = some t2 →
      t2.task_status.state = t.task_status.state ∨
      allowed_transition t.task_status.state t2.task_status.state = true) ∧
    (∀ (ops : List task_op) (t : task),
      t.task_status.state.is_terminal = true →
      (run_ops t ops).task_status.state = t.task_status.state) := by
  constructor
  · intro op t t2 h
    cases op with
    | start_op now =>
      simp only [apply_op] at h
      unfold task.start at h
      split at h
      · have h2 := change_state_allowed _ _ _ h
        exact Or.inr h2
      · cases h
    | change_state_op s =>
      simp only [apply_op] at h
      exact Or.inr (change_state_allowed _ _ _ h)
    | finish_op now =>
      simp only [apply_op] at h
      unfold task.finish at h
      split at h
      · have h2 := change_state_allowed _ _ _ h
        exact Or.inr h2
      · cases h
    | finish_failed_op now err =>
      simp only [apply_op] at h
      unfold task.finish_failed at h
      split at h
      · have h2 := change_state_allowed _ _ _ h
        exact Or.inr h2
      · cases h
    | abort_op =>
      simp only [apply_op] at h
      unfold task.abort at h
      split at h
      · injection h with h2
        subst h2
        exact Or.inl rfl
      · cases h
  · exact run_ops_terminal

/-- Witness for C5 at concrete inputs: starting a freshly created task is an
allowed forward step, and a Done task is still Done after a further start
attempt. -/
theorem task_state_monotonic_witness :
    (({ task_status := { state := .running, start_time := 5 } } :
          task).task_status.state =
        ({ task_status := {} } : task).task_status.state ∨
      allowed_transition ({ task_status := {} } : task).task_status.state
        ({ task_status := { state := .running, start_time := 5 } } :
          task).task_status.state = true) ∧
    (run_ops { task_status := { state := .done } }
        [task_op.start_op 3]).task_status.state =
      ({ task_status := { state := .done } } : task).task_status.state :=
  ⟨task_state_monotonic.1 (task_op.start_op 5) { task_status := {} }
      { task_status := { state := .running, start_time := 5 } } (by decide),
    task_state_monotonic.2 [task_op.start_op 3]
      { task_status := { state := .done } } (by rfl)⟩

/-- Starting a task through its shared pointer right after creation: the
in-place mutation by `task->start()` is visible through the module's
registered entry for that task, modelled by updating the registry entry
alongside the task value (a rejected `start` — a fatal internal error in the
source — leaves both unchanged). -/
def start_registered (now : Nat) (t : task) (m : module_state) :
    task × module_state :=
  match task.start now t with
  | some t2 =>
    let upd := fun (p : task_id × task) =>
      if p.1 = t.task_status.id then (p.1, t2) else p
    (t2, { m with tasks := m.tasks.map upd })
  | none => (t, m)

/-- `module::make_and_start_task` (task_manager.hh:266-276): constructs the
implementation from its arguments (`task_impl` stands for the constructed
`TaskImpl`), makes the task via the non-template `make_task` with the given
`parent_info`, starts it, and returns that task. -/
def make_and_start_task (task_impl : task) (parent_info : task_info)
    (parent_seq : Nat) (now : Nat) (m : module_state) : task × module_state :=
  let made := make_task_local task_impl parent_info parent_seq m
  start_registered now made.1 made.2

/-- The claim's composition, written from the spec's words: `make_task` with
the same arguments, followed by `start` on the returned task. -/
def make_then_start (task_impl : task) (parent_info : task_info)
    (parent_seq : Nat) (now : Nat) (m : module_state) : task × module_state :=
  start_registered now (make_task_local task_impl parent_info parent_seq m).1
    (make_task_local task_impl parent_info parent_seq m).2

/-- C6: `make_and_start_task` is observationally equal to the composition of
`make_task` (with the same arguments) followed by `start` on the returned
task, and its returned task is exactly that same started task. -/
theorem make_and_start_task_is_make_then_start (task_impl : task)
    (parent_info : task_info) (parent_seq : Nat) (now : Nat)
    (m : module_state) :
    (make_and_start_task task_impl parent_info parent_seq now m =
      make_then_start task_impl parent_info parent_seq now m) ∧
    ((make_and_start_task task_impl parent_info parent_seq now m).1 =
      (start_registered now
        (make_task_local task_impl parent_info parent_seq m).1
        (make_task_local task_impl parent_info parent_seq m).2).1) :=
  ⟨rfl, rfl⟩

end Tasks
